import Mathlib

/-!
Verification of the boardgames_sommelier pipeline against its design
specification.  The Python sources under `lambda_functions/` are shallowly
embedded as executable Lean definitions; the theorems at the end of the file
settle the specification claims about discovery, extraction, cleaning,
transformation and data quality.
-/

set_option maxRecDepth 4000

namespace BGGSpec

/-! ## Python scalar values and truthiness

The cleaner reads `bgg_game_id` / `game_id` straight out of a JSON payload and
relies on Python truthiness (`a or b`), so those two fields are embedded as a
small dynamic value type. -/

/-- Scalar JSON value as the cleaner sees it in a raw payload. -/
inductive PyVal where
  | pnone
  | pint (n : Int)
  | pstr (s : String)
deriving DecidableEq

/-- Python truthiness: `None`, `0` and the empty string are falsy. -/
def PyVal.truthy : PyVal → Bool
  | .pnone => false
  | .pint n => decide (n ≠ 0)
  | .pstr s => decide (s ≠ "")

/-- Python `a or b`: the first operand if truthy, otherwise the second. -/
def pyOr (a b : PyVal) : PyVal := if a.truthy then a else b

/-- Python `str()` / f-string rendering of a scalar. -/
def PyVal.render : PyVal → String
  | .pnone => "None"
  | .pint n => toString n
  | .pstr s => s

/-- Python `a or b` on two optional ints (`game.get('min_age_rec') or
game.get('min_age')`): `None` and `0` are falsy. -/
def pyOrInt (a b : Option Int) : Option Int :=
  match a with
  | some n => if n ≠ 0 then some n else b
  | none => b

/-- Python `pat in s` substring test (for a non-empty pattern). -/
def strHasSub (s pat : String) : Bool := decide (2 ≤ (s.splitOn pat).length)

/-! ## Bronze-to-Silver cleaner (`clean_bgg_data.py`)

`validate_and_clean_game_data` maps each raw game dict to a `dim_game` row,
coerces the columns to the declared schema and normalizes zero player counts.
Records are embedded with the field types the extractor produces; fractional
statistics are carried as exact rationals since the cleaner only copies them. -/

/-- An entry of a raw link list (`mechanics`, `categories`, ...): a dict
carrying an id and a name, or any other scalar (the source stringifies
non-dicts when it needs a name). -/
inductive LinkEntry where
  | ldict (id : Option Int) (name : String)
  | lval (v : PyVal)
deriving DecidableEq

/-- Name lookup used by the cooperative heuristic:
`m.get('name','') if isinstance(m, dict) else str(m)`. -/
def LinkEntry.nameStr : LinkEntry → String
  | .ldict _ n => n
  | .lval v => v.render

/-- Nested `statistics` dict as read defensively by the cleaner. -/
structure RawStats where
  users_rated : Option Int
  average_rating : Option Rat
  stddev : Option Rat
  bayes_average_rating : Option Rat
  average_weight : Option Rat
deriving DecidableEq

/-- The empty `statistics` dict (`game.get('statistics', {})`). -/
def RawStats.empty : RawStats := ⟨none, none, none, none, none⟩

/-- A raw game record from the bronze layer, with the fields the cleaner and
transformer read. -/
structure RawGame where
  bgg_game_id : PyVal
  game_id : PyVal
  year_published : Option Int
  average_weight : Option Rat
  average_rating : Option Rat
  min_players : Option Int
  max_players : Option Int
  min_players_best : Option Int
  max_players_best : Option Int
  min_age_rec : Option Int
  min_age : Option Int
  min_playtime : Option Int
  max_playtime : Option Int
  mechanics : List LinkEntry
  categories : List LinkEntry
  families : List LinkEntry
  publishers : List LinkEntry
  artists : List LinkEntry
  rank_boardgame : Option Int
  statistics : Option RawStats
  primary_name : Option String
  description : Option String
  thumbnail : Option String
  image : Option String
  extraction_date : Option String
deriving DecidableEq

/-- A cleaned `dim_game` row after schema coercion and normalization. -/
structure CleanedGame where
  game_id : String
  bgg_game_id : Option Int
  year : Option Int
  weight : Option Rat
  min_players : Option Int
  max_players : Option Int
  min_players_best : Option Int
  max_players_best : Option Int
  min_age_rec : Option Int
  min_time : Option Int
  max_time : Option Int
  cooperative : Bool
  rank_bgg : Option Int
  num_votes_bgg : Option Int
  avg_rating_bgg : Option Rat
  stddev_rating_bgg : Option Rat
  bayes_rating_bgg : Option Rat
  complexity_bgg : Option Rat
  reddit_game_id : Option String
  bgstats_game_id : Option String
  bga_game_id : Option String
  primary_name : String
  description : String
  thumbnail_url : String
  image_url : String
  extraction_date : String
deriving DecidableEq

/-- Source id selection:
`source_id = game.get('bgg_game_id') or game.get('game_id')`. -/
def sourceIdOf (g : RawGame) : PyVal := pyOr g.bgg_game_id g.game_id

/-- Surrogate key derivation: `game_id_sk = f"bggg_{source_id or 0}"`. -/
def surrogateKey (sourceId : PyVal) : String :=
  "bggg_" ++ (pyOr sourceId (PyVal.pint 0)).render

/-- Coercion of the selected source id into the `Int64` `bgg_game_id` column
(`pd.to_numeric(..., errors='coerce')`). -/
def pyToInt : PyVal → Option Int
  | .pnone => none
  | .pint n => some n
  | .pstr s => s.toInt?

/-- Cooperative heuristic: any mechanic whose lowercased name contains the
substring `cooperative`. -/
def isCooperative (ms : List LinkEntry) : Bool :=
  ms.any (fun m => strHasSub m.nameStr.toLower ("cooperative"))

/-- Zero-normalization of a player-count column,
`df[col].where(df[col] != 0, 1)` on a nullable `Int64` column: entries where
the condition holds keep their value, entries where it is false or `NA` (the
condition is filled with `False` by pandas `where`) are replaced by `1`. -/
def normPlayers : Option Int → Option Int
  | some n => if n ≠ 0 then some n else some 1
  | none => some 1

/-- Cleaning of one raw record: the per-record dict built by
`validate_and_clean_game_data` composed with the dataframe-level schema
coercion and zero-normalization.  `now` is the `datetime.utcnow().isoformat()`
value used as the default extraction date. -/
def cleanRecord (now : String) (g : RawGame) : CleanedGame :=
  let stats := g.statistics.getD RawStats.empty
  { game_id := surrogateKey (sourceIdOf g)
    bgg_game_id := pyToInt (sourceIdOf g)
    year := g.year_published
    weight := g.average_weight
    min_players := normPlayers g.min_players
    max_players := normPlayers g.max_players
    min_players_best := g.min_players_best
    max_players_best := g.max_players_best
    min_age_rec := pyOrInt g.min_age_rec g.min_age
    min_time := g.min_playtime
    max_time := g.max_playtime
    cooperative := isCooperative g.mechanics
    rank_bgg := g.rank_boardgame
    num_votes_bgg := stats.users_rated
    avg_rating_bgg := stats.average_rating
    stddev_rating_bgg := stats.stddev
    bayes_rating_bgg := stats.bayes_average_rating
    complexity_bgg := stats.average_weight
    reddit_game_id := none
    bgstats_game_id := none
    bga_game_id := none
    primary_name := g.primary_name.getD ""
    description := g.description.getD ""
    thumbnail_url := g.thumbnail.getD ""
    image_url := g.image.getD ""
    extraction_date := g.extraction_date.getD now }

/-- Cleaning of a batch: every record is mapped through `cleanRecord` (the
per-record `try/except` only drops records whose cleaning raises, which this
typed embedding's records never do). -/
def cleanBatch (now : String) (gs : List RawGame) : List CleanedGame :=
  gs.map (cleanRecord now)

/-- A raw record with every optional field absent, used as the base of the
concrete test records below. -/
def rawBase : RawGame :=
  ⟨PyVal.pnone, PyVal.pnone, none, none, none, none, none, none, none, none,
   none, none, none, [], [], [], [], [], none, none, none, none, none, none,
   none⟩

/-- A raw record reporting a negative minimum player count. -/
def rawNegPlayers : RawGame := { rawBase with min_players := some (-1) }

/-- A raw record reporting zero minimum players and five maximum players. -/
def rawZeroPlayers : RawGame :=
  { rawBase with min_players := some 0, max_players := some 5 }

/-- A raw record that carries no `extraction_date`. -/
def rawNoDate : RawGame := { rawBase with bgg_game_id := PyVal.pint 421 }

/-- A raw record whose id fields are `None` and `0`. -/
def rawNoId : RawGame :=
  { rawBase with bgg_game_id := PyVal.pnone, game_id := PyVal.pint 0 }

/-- A second id-less raw record, with an empty-string id. -/
def rawNoId2 : RawGame :=
  { rawBase with bgg_game_id := PyVal.pint 0, game_id := PyVal.pstr "" }

/-! ## Blob-store write traces (`clean_bgg_data.py` / `transform_bgg_data.py`)

The cleaner writes every output file with a put-to-temp / copy-to-final /
delete-temp sequence; the transformer writes its bridge and fact files with a
single direct put.  Keys are embedded structurally, with `BlobKey.render`
giving the concrete S3 key strings of the source. -/

/-- Destination keys of the pipeline's silver and gold writes. -/
inductive BlobKey where
  | tmpKey (u : String)
  | dimGameYear (year : Int)
  | dimTableKey (table ts : String)
  | bridgeYear (table : String) (year : Int)
  | factDate (d : String)
deriving DecidableEq

/-- Concrete S3 key strings used by the source. -/
def BlobKey.render : BlobKey → String
  | .tmpKey u => "bgg/_tmp/" ++ u ++ "-data.parquet"
  | .dimGameYear y =>
      "bgg/dim_game/year_published=" ++ toString y ++ "/data.parquet"
  | .dimTableKey t ts => "bgg/" ++ t ++ "/data_" ++ ts ++ ".parquet"
  | .bridgeYear t y =>
      "bgg/" ++ t ++ "/year_published=" ++ toString y ++ "/data.parquet"
  | .factDate d =>
      "bgg/fct_user_rating/extraction_date=" ++ d ++ "/data.parquet"

/-- A fact row at the one-aggregate-row-per-game grain (user key, game key,
latest rating); the extraction date is dropped before the write. -/
structure FactRow where
  user_id_sk : String
  game_id_sk : String
  bgg_latest_rating : Option Rat
  extraction_date : String
deriving DecidableEq

/-- The body of one written parquet file. -/
inductive FilePayload where
  | gameRows (rows : List CleanedGame)
  | dimRows (rows : List (Option Int × String))
  | bridgeRowsP (rows : List (String × Nat))
  | factRowsP (rows : List (String × String × Option Rat))
deriving DecidableEq

/-- One S3 call made by a handler, in order. -/
inductive S3Op where
  | putOb (key : BlobKey) (body : FilePayload)
  | copyOb (src dst : BlobKey)
  | delOb (key : BlobKey)
deriving DecidableEq

/-- Recognizer for copy operations. -/
def S3Op.isCopy : S3Op → Bool
  | .copyOb _ _ => true
  | _ => false

/-- The atomic write sequence of the cleaner: upload the full payload to a
temp key, copy it to the final key, delete the temp object. -/
def atomicWrite (u : String) (final : BlobKey) (body : FilePayload) :
    List S3Op :=
  [S3Op.putOb (BlobKey.tmpKey u) body,
   S3Op.copyOb (BlobKey.tmpKey u) final,
   S3Op.delOb (BlobKey.tmpKey u)]

/-- The write sequence the specification claims for a final key: somewhere in
the trace, a contiguous put-temp / copy-to-final / delete-temp block. -/
def atomicSeqAt (tr : List S3Op) (final : BlobKey) : Prop :=
  ∃ u body, List.IsInfix (atomicWrite u final body) tr

/-- `df_game.groupby('year')` keys: the distinct non-null years, ascending
(pandas `groupby` sorts its keys and drops null keys, so the source's
`if pd.isna(year)` branch is never taken). -/
def yearKeys (df : List CleanedGame) : List Int :=
  List.insertionSort (fun a b => a ≤ b) ((df.filterMap (fun c => c.year)).dedup)

/-- The rows of one year partition. -/
def yearGroup (df : List CleanedGame) (y : Int) : List CleanedGame :=
  df.filter (fun c => c.year == some y)

/-- `extract_dimension_data` row collection: dict items contribute their id
and name, any other item is stringified and numbered by the running
`next_id` counter (starting at 1). -/
def dimRowsOf (games : List RawGame) (select : RawGame → List LinkEntry) :
    List (Option Int × String) :=
  ((games.flatMap select).foldl
    (fun acc it =>
      match it with
      | LinkEntry.ldict i n => (acc.1 ++ [(i, n)], acc.2)
      | LinkEntry.lval v =>
          (acc.1 ++ [(some (Int.ofNat acc.2), v.render)], acc.2 + 1))
    ([], 1)).1

/-- `drop_duplicates(subset=[id_column])`, keeping the first row per id. -/
def dedupByIdFirst (l : List (Option Int × String)) :
    List (Option Int × String) :=
  (l.foldl
    (fun acc b =>
      if acc.2.contains b.1 then acc else (acc.1 ++ [b], b.1 :: acc.2))
    ([], [])).1

/-- The cleaner's per-year-partition writes, threading the uuid counter. -/
def yearWriteOps (uuids : Nat → String) (df : List CleanedGame) :
    Nat → List Int → List S3Op
  | _, [] => []
  | i, y :: ys =>
      atomicWrite (uuids i) (BlobKey.dimGameYear y)
          (FilePayload.gameRows (yearGroup df y))
        ++ yearWriteOps uuids df (i + 1) ys

/-- One entry of the cleaner's `dimensions` dict: target table, source link
list, and whether a grouped column is declared (`grouped_column` non-None,
i.e. `dim_category` and `dim_mechanic`). -/
structure DimSpec where
  table : String
  select : RawGame → List LinkEntry
  grouped : Bool

/-- The cleaner's five dimension-lookup tables, in source order. -/
def cleanerDimSpecs : List DimSpec :=
  [⟨"dim_category", RawGame.categories, true⟩,
   ⟨"dim_mechanic", RawGame.mechanics, true⟩,
   ⟨"dim_theme", RawGame.families, false⟩,
   ⟨"dim_publisher", RawGame.publishers, false⟩,
   ⟨"dim_artist", RawGame.artists, false⟩]

/-- The cleaner's dimension-table writes, returning the emitted ops and
whether the handler aborted.  On an empty dimension the frame built from
`pd.DataFrame([])` has no columns; for a spec with a grouped column,
`df[grouped_column] = df[id_column]` in `extract_dimension_data` then raises
`KeyError`, which the handler's `except` re-raises, so no later table is
written; a spec without a grouped column just fails the `len(df_dim) > 0`
check and is skipped.  Non-empty tables are written atomically, consuming
one uuid each. -/
def dimWriteOps (uuids : Nat → String) (ts : String) (raws : List RawGame) :
    Nat → List DimSpec → List S3Op × Bool
  | _, [] => ([], false)
  | i, spec :: rest =>
      let rows := dedupByIdFirst (dimRowsOf raws spec.select)
      if rows.isEmpty then
        if spec.grouped then ([], true)
        else dimWriteOps uuids ts raws i rest
      else
        let r := dimWriteOps uuids ts raws (i + 1) rest
        (atomicWrite (uuids i) (BlobKey.dimTableKey spec.table ts)
            (FilePayload.dimRows rows) ++ r.1, r.2)

/-- Whether a cleaner run aborts in the dimension loop: some dimension with
a grouped column yields no rows. -/
def cleanerAborts (raws : List RawGame) : Bool :=
  cleanerDimSpecs.any (fun spec =>
    spec.grouped && (dedupByIdFirst (dimRowsOf raws spec.select)).isEmpty)

/-- The cleaner handler's S3 write trace for one batch: the year partitions
of `dim_game`, then the dimension tables up to the point where the handler
aborts (if it does). -/
def cleanerTrace (uuids : Nat → String) (now ts : String)
    (raws : List RawGame) : List S3Op :=
  let df := cleanBatch now raws
  yearWriteOps uuids df 0 (yearKeys df)
    ++ (dimWriteOps uuids ts raws (yearKeys df).length cleanerDimSpecs).1

/-! ## Discovery engine (`game_id_discovery.py`)

The crawl watermark is stored in DynamoDB as `str(last_scanned_id)` and read
back with `int(...)`; the stored value is embedded as a decimal numeral
(little-endian digit list plus sign). -/

/-- A decimal numeral, the `'value'` attribute written by
`set_last_scanned_id` (`str(last_scanned_id)`). -/
structure DecStr where
  digits : List Nat
  neg : Bool
deriving DecidableEq

/-- Python `str()` of an integer as a decimal numeral. -/
def pyStrOfInt (n : Int) : DecStr := ⟨Nat.digits 10 n.natAbs, decide (n < 0)⟩

/-- Python `int()` of a decimal numeral. -/
def pyIntOfStr (d : DecStr) : Int :=
  if d.neg then -(Nat.ofDigits 10 d.digits : Nat) else (Nat.ofDigits 10 d.digits : Nat)

lemma pyIntOfStr_pyStrOfInt (n : Int) : pyIntOfStr (pyStrOfInt n) = n := by
  unfold pyIntOfStr pyStrOfInt
  by_cases h : n < 0
  · simp [h, Nat.ofDigits_digits, Int.natCast_natAbs, abs_of_neg h]
  · simp [h, Nat.ofDigits_digits, Int.natCast_natAbs,
      abs_of_nonneg (not_lt.mp h)]

/-- The single distinguished state-store record owned by the range-scan
strategy (`__STATE__` / `LAST_SCANNED_ID`). -/
structure CrawlState where
  lastScanned : Option DecStr
deriving DecidableEq

/-- `get_last_scanned_id`: parse the stored value, defaulting to `1` when the
record is absent. -/
def getLastScannedId (st : CrawlState) : Int :=
  match st.lastScanned with
  | none => 1
  | some s => pyIntOfStr s

/-- `set_last_scanned_id`: persist `str(last_scanned_id)`. -/
def setLastScannedId (_st : CrawlState) (n : Int) : CrawlState :=
  ⟨some (pyStrOfInt n)⟩

/-- Number of sub-batches of `range(start_id, end_id, batch_size)`. -/
def numBatches (startId endId : Int) (batchSize : Nat) : Nat :=
  if batchSize = 0 then 0
  else ((endId - startId).toNat + batchSize - 1) / batchSize

/-- `scan_id_range`: each sub-batch request either yields the set of ids of a
parsed 200 response (`some ids`) or contributes nothing (`none`: a non-200
status, a network error or a parse error, all swallowed per batch); the
watermark is then advanced to `end_id` unconditionally. -/
def scanIdRange (responses : Nat → Option (List String)) (st : CrawlState)
    (startId endId : Int) (batchSize : Nat) : List String × CrawlState :=
  let valid := ((List.range (numBatches startId endId batchSize)).flatMap
      (fun i => (responses i).getD [])).dedup
  (valid, setLastScannedId st endId)

/-- One range-scan step of a discovery run: scan the window
`[watermark, watermark + scan_range_size)`. -/
def discoveryScanStep (st : CrawlState) (scanRangeSize : Int) (batchSize : Nat)
    (responses : Nat → Option (List String)) : List String × CrawlState :=
  let lastScanned := getLastScannedId st
  scanIdRange responses st lastScanned (lastScanned + scanRangeSize) batchSize

/-- Sequential discovery runs: run `n` range-scan steps, the run at index `k`
seeing the sub-batch responses `runs k`. -/
def discoveryIter (st : CrawlState) (scanRangeSize : Int) (batchSize : Nat)
    (runs : Nat → Nat → Option (List String)) : Nat → CrawlState
  | 0 => st
  | n + 1 =>
      (discoveryScanStep (discoveryIter st scanRangeSize batchSize runs n)
        scanRangeSize (batchSize) (runs n)).2

/-- Python string comparison (lexicographic by code point), used on ISO
timestamps by the status-index queries. -/
def pyCharsLt : List Char → List Char → Bool
  | [], [] => false
  | [], _ :: _ => true
  | _ :: _, [] => false
  | a :: as, b :: bs =>
      if a < b then true else if b < a then false else pyCharsLt as bs

/-- Python `a < b` on strings. -/
def pyStrLt (a b : String) : Bool := pyCharsLt a.data b.data

/-- Python `a >= b` on strings (total order, so the negation of `<`). -/
def pyStrGe (a b : String) : Bool := !pyStrLt a b

/-- A per-item state record as returned by queries on the status index. -/
structure StateItem where
  game_id : String
  last_updated : String
  processing_status : String
deriving DecidableEq

/-- `get_games_needing_refresh`: index query for COMPLETED items older than
the cutoff, limited to `limit` items, then deduplicated by game id (the
per-id latest-timestamp bookkeeping only affects which timestamp is kept,
not the key set). -/
def getGamesNeedingRefresh (table : List StateItem) (cutoffIso : String)
    (limit : Nat) : List String :=
  let hits := (table.filter (fun it =>
      it.processing_status == "COMPLETED"
        && pyStrLt it.last_updated cutoffIso)).take limit
  (hits.filterMap (fun it =>
      if it.game_id ≠ "" ∧ it.last_updated ≠ "" then some it.game_id
      else none)).dedup

/-- `get_recently_processed_games`: fully paginated index query for COMPLETED
items at or after the cutoff, deduplicated by game id. -/
def getRecentlyProcessedGames (table : List StateItem) (cutoffIso : String) :
    List String :=
  let hits := table.filter (fun it =>
      it.processing_status == "COMPLETED"
        && pyStrGe it.last_updated cutoffIso)
  (hits.filterMap (fun it =>
      if it.game_id ≠ "" ∧ it.last_updated ≠ "" then some it.game_id
      else none)).dedup

/-- The non-refresh candidate pool:
`(trending ∪ range_scan) − recent − stale`. -/
def nonRefreshPool (hotAll : List String) (hotLimit : Nat)
    (scanIds : List String) (recent stale : List String) : List String :=
  (((hotAll.take hotLimit ++ scanIds).dedup).filter
      (fun x => decide (x ∉ recent))).filter (fun x => decide (x ∉ stale))

/-- The discovery handler's batch combination: trending and range-scan ids
are unioned, recently completed and refresh-eligible ids removed, the result
capped at `new_ids_limit`, and the refresh set unioned back in. -/
def discoveryBatch (hotAll : List String) (hotLimit : Nat)
    (scanIds : List String) (table : List StateItem) (cutoffIso : String)
    (refreshLimit newIdsLimit : Nat) : List String :=
  let recent := getRecentlyProcessedGames table cutoffIso
  let stale := getGamesNeedingRefresh table cutoffIso refreshLimit
  let pool := nonRefreshPool hotAll hotLimit scanIds recent stale
  let capped := if newIdsLimit < pool.length then pool.take newIdsLimit
    else pool
  (capped ++ stale).dedup

/-- A concrete state table: one stale COMPLETED item and one recent one. -/
def dqT4 : List StateItem :=
  [⟨"20", "2025-01-01T00:00:00", "COMPLETED"⟩,
   ⟨"10", "2026-09-20T00:00:00", "COMPLETED"⟩]

/-! ## Extraction worker (`extract_bgg_data.py`)

`fetch_game_data` performs up to `max_retries` requests; each request either
returns a parsed payload, parses to `None`, or raises one of three exception
classes. Only the transient network class (`socket.gaierror`,
`socket.timeout`) is retried, after an exponential-backoff sleep. -/

/-- Outcome of one request attempt inside `fetch_game_data`. -/
inductive FetchOutcome where
  | ok (payload : String)
  | parsedNone
  | netErr
  | httpErr
  | otherErr
deriving DecidableEq

/-- Outcomes the source returns `None` for without retrying: a 2xx response
whose XML lacks an `item` element or fails to parse (`parse_game_xml`
returns `None`), an HTTP-level `requests.RequestException`, and any other
exception. -/
def FetchOutcome.noRetry : FetchOutcome → Bool
  | .parsedNone => true
  | .httpErr => true
  | .otherErr => true
  | _ => false

/-- Result of `fetch_game_data`: the returned payload (if any), the number of
requests made, and the backoff sleeps performed between attempts. -/
structure FetchRun where
  result : Option String
  attempts : Nat
  waits : List Nat
deriving DecidableEq

/-- The `for attempt in range(max_retries)` loop of `fetch_game_data`,
starting at attempt number `attempt` with `remaining` iterations left: a
successful attempt returns the parse result immediately, a non-retryable
error returns `None` immediately, and a network error retries after sleeping
`2 ** attempt` seconds unless this was the last iteration. -/
def fetchGo (outcomes : Nat → FetchOutcome) : Nat → Nat → FetchRun
  | _, 0 => ⟨none, 0, []⟩
  | attempt, r + 1 =>
      match outcomes attempt with
      | .ok p => ⟨some p, 1, []⟩
      | .parsedNone => ⟨none, 1, []⟩
      | .httpErr => ⟨none, 1, []⟩
      | .otherErr => ⟨none, 1, []⟩
      | .netErr =>
          if r = 0 then ⟨none, 1, []⟩
          else
            let rest := fetchGo outcomes (attempt + 1) r
            ⟨rest.result, rest.attempts + 1, 2 ^ attempt :: rest.waits⟩

/-- `fetch_game_data(game_id, token, max_retries)` as a function of the
per-attempt outcomes. -/
def fetchGameData (outcomes : Nat → FetchOutcome) (maxRetries : Nat) :
    FetchRun :=
  fetchGo outcomes 0 maxRetries

/-- Concrete outcome stream for the C7 witness: a network error on the first
attempt, then an HTTP error. -/
def fetchOutcomesW : Nat → FetchOutcome :=
  fun n => if n = 0 then FetchOutcome.netErr else FetchOutcome.httpErr

/-- Externally visible effects of the extraction handler. `stateWrite` is the
DynamoDB item-state update the specification describes; the handler's trace
is built from the calls the source actually makes. -/
inductive ExtractEffect where
  | fetchCall (gameId : Int)
  | s3PutRaw (key : String) (numGames : Nat)
  | stateWrite (gameId : Int) (status : String)
deriving DecidableEq

/-- Recognizer for item-state writes in an effect trace. -/
def ExtractEffect.isStateWrite : ExtractEffect → Bool
  | .stateWrite _ _ => true
  | _ => false

/-- Result of one extraction invocation: the response body fields plus the
trace of externally visible effects, in order. -/
structure ExtractResult where
  statusCode : Nat
  gamesProcessed : Nat
  gamesFailed : Nat
  failedIds : List Int
  trace : List ExtractEffect
deriving DecidableEq

/-- Raw-batch blob key:
`bgg/raw_games/extraction_date=<date>/<batch_name>.json`. -/
def rawBatchKey (extractionDate batchName : String) : String :=
  "bgg/raw_games/extraction_date=" ++ extractionDate ++ "/" ++ batchName
    ++ ".json"

/-- `lambda_handler` of the extraction worker: reject an empty id list with a
400, otherwise fetch every id (collecting successes and failures), and write
one JSON file of the successful payloads to the bronze bucket.  `fetch i`
is the result of `fetch_game_data` for id `i` (`none` for any failure). -/
def extractHandler (gameIds : List Int) (fetch : Int → Option String)
    (extractionDate batchName : String) : ExtractResult :=
  if gameIds.isEmpty then ⟨400, 0, 0, [], []⟩
  else
    let gamesData := gameIds.filterMap fetch
    let failedIds := gameIds.filter (fun i => (fetch i).isNone)
    let fetchOps := gameIds.map ExtractEffect.fetchCall
    let putOps := if gamesData.isEmpty then ([] : List ExtractEffect)
      else [ExtractEffect.s3PutRaw (rawBatchKey extractionDate batchName)
        gamesData.length]
    ⟨200, gamesData.length, failedIds.length, failedIds, fetchOps ++ putOps⟩

/-- A fetch function that succeeds on every id, for the C1 evaluation. -/
def extractFetchOk : Int → Option String := fun _ => some ("<parsed game>")

/-! ## Silver-to-Gold transformer (`transform_bgg_data.py`)

`create_bridge_tables` builds the natural-key to surrogate-key map from the
cleaned dimension, re-reads the raw records, assigns per-run sequential ids
to the distinct link values (sorted by name) and deduplicates the rows. -/

/-- `dict(zip(df['bgg_game_id'], df['game_id']))`: a Python dict, the last
binding for a key wins. -/
def dictGet (m : List (Int × String)) (k : Int) : Option String :=
  (m.reverse.find? (fun p => p.1 == k)).map (fun p => p.2)

/-- The natural-key to surrogate-key map read off the cleaned `dim_game`
table (rows with a null `bgg_game_id` contribute no usable integer key). -/
def gameIdMap (dfGame : List CleanedGame) : List (Int × String) :=
  dfGame.filterMap (fun c => c.bgg_game_id.map (fun n => (n, c.game_id)))

/-- The transformer's id selection for one raw record:
`game.get('bgg_game_id') or game.get('game_id')`, converting a string with
`int(...)` and skipping the record if that raises. -/
def bridgeKeyOf (g : RawGame) : Option Int :=
  match pyOr g.bgg_game_id g.game_id with
  | .pint n => some n
  | .pstr s => s.toInt?
  | .pnone => none

/-- Python `str.strip()`: drop leading and trailing whitespace. -/
def pyStrip (s : String) : String :=
  ⟨((s.data.dropWhile Char.isWhitespace).reverse.dropWhile
      Char.isWhitespace).reverse⟩

/-- Link values considered by the bridge builder: only non-empty stripped
strings (`isinstance(item, str) and item.strip()`). -/
def bridgeItems (items : List LinkEntry) : List String :=
  items.filterMap (fun it =>
    match it with
    | .lval (.pstr s) => if pyStrip s ≠ "" then some (pyStrip s) else none
    | _ => none)

/-- `bridge_data` for one dimension: one `(game surrogate key, value)` row
per link value of each raw record that maps to a non-falsy surrogate key. -/
def bridgeRows (m : List (Int × String)) (games : List RawGame)
    (select : RawGame → List LinkEntry) : List (String × String) :=
  games.flatMap (fun g =>
    match (bridgeKeyOf g).bind (dictGet m) with
    | none => []
    | some sk =>
        if sk ≠ "" then (bridgeItems (select g)).map (fun n => (sk, n))
        else [])

/-- Python string `a <= b`. -/
def pyStrLe (a b : String) : Bool := !pyStrLt b a

/-- `sorted(dim_values)`: the distinct link values in ascending order. -/
def sortedDimValues (rows : List (String × String)) : List String :=
  List.insertionSort (fun a b => pyStrLe a b = true) ((rows.map Prod.snd).dedup)

/-- `dim_id_map`: sequential ids (starting at 1) assigned to the sorted
distinct link values of this run. -/
def dimIdMap (rows : List (String × String)) (n : String) : Nat :=
  (sortedDimValues rows).indexOf n + 1

/-- One bridge table: rows get their dimension ids, are deduplicated
(`drop_duplicates` over all columns), and are projected onto
`(game_id, id_field)`. -/
def bridgeTable (m : List (Int × String)) (games : List RawGame)
    (select : RawGame → List LinkEntry) : List (String × Nat) :=
  let rows := bridgeRows m games select
  let withIds := rows.map (fun r => (r.1, r.2, dimIdMap rows r.2))
  (withIds.dedup).map (fun t => (t.1, t.2.2))

/-- The left merge of a bridge row with `df_game[['game_id','year']]`: the
years of every matching dimension row, or a single null year if none match. -/
def yearOfSk (df : List CleanedGame) (sk : String) : List (Option Int) :=
  let ms := df.filter (fun c => c.game_id == sk)
  if ms.isEmpty then [none] else ms.map (fun c => c.year)

/-- Bridge rows joined with their partition year. -/
def bridgeWithYears (df : List CleanedGame) (rows : List (String × Nat)) :
    List ((String × Nat) × Option Int) :=
  rows.flatMap (fun r => (yearOfSk df r.1).map (fun y => (r, y)))

/-- `groupby('year')` keys of a joined bridge table: distinct non-null years,
ascending. -/
def bridgeYearKeys (l : List ((String × Nat) × Option Int)) : List Int :=
  List.insertionSort (fun a b => a ≤ b) ((l.filterMap (fun p => p.2)).dedup)

/-- The transformer's five bridge tables, in source order. -/
def bridgeSpecs : List (String × (RawGame → List LinkEntry)) :=
  [("br_game_category", RawGame.categories),
   ("br_game_mechanic", RawGame.mechanics),
   ("br_game_theme", RawGame.families),
   ("br_game_publisher", RawGame.publishers),
   ("br_game_artist", RawGame.artists)]

/-- `create_fact_user_rating`: one aggregate row per raw record whose id maps
to a non-falsy surrogate key. -/
def factRows (raws : List RawGame) (m : List (Int × String)) (now : String) :
    List FactRow :=
  raws.filterMap (fun g =>
    match (bridgeKeyOf g).bind (dictGet m) with
    | none => none
    | some sk =>
        if sk ≠ "" then
          some ⟨"bgg_aggregate", sk, g.average_rating, g.extraction_date.getD now⟩
        else none)

/-- The date part of an ISO timestamp
(`pd.to_datetime(...).dt.date` on the stored ISO strings). -/
def dateOf (s : String) : String := (s.splitOn ("T")).headD s

/-- `groupby('extraction_date_parsed')` keys: distinct dates, ascending. -/
def factDateKeys (rows : List FactRow) : List String :=
  List.insertionSort (fun a b => pyStrLe a b = true)
    ((rows.map (fun r => dateOf r.extraction_date)).dedup)

/-- The transformer handler's full S3 write trace: for each non-empty bridge
table one direct put per year partition, then for the fact table one direct
put per extraction date. -/
def transformerTrace (dfGame : List CleanedGame) (raws : List RawGame)
    (now : String) : List S3Op :=
  let m := gameIdMap dfGame
  let bridgeOps := bridgeSpecs.flatMap (fun spec =>
    let tbl := bridgeTable m raws spec.2
    if tbl.isEmpty then []
    else
      let withY := bridgeWithYears dfGame tbl
      (bridgeYearKeys withY).map (fun y =>
        S3Op.putOb (BlobKey.bridgeYear spec.1 y)
          (FilePayload.bridgeRowsP
            ((withY.filter (fun p => p.2 == some y)).map (fun p => p.1)))))
  let fact := factRows raws m now
  let factOps := if fact.isEmpty then []
    else (factDateKeys fact).map (fun d =>
      S3Op.putOb (BlobKey.factDate d)
        (FilePayload.factRowsP
          ((fact.filter (fun r => dateOf r.extraction_date == d)).map
            (fun r => (r.user_id_sk, r.game_id_sk, r.bgg_latest_rating)))))
  bridgeOps ++ factOps

/-- Concrete raw record for the C2 counterexample: id 421, year 2020, one
string category, as in the spec's end-to-end scenario. -/
def cexRaw : RawGame :=
  { rawBase with
    bgg_game_id := PyVal.pint 421
    year_published := some 2020
    categories := [LinkEntry.lval (PyVal.pstr "Strategy")]
    extraction_date := some "2026-10-12T00:00:00" }

/-- The cleaned dimension built from `cexRaw`. -/
def cexDf : List CleanedGame := cleanBatch ("2026-10-12T00:00:00") [cexRaw]

/-- Concrete raw record for the C2 witness: like `cexRaw`, but with one
mechanic as well, so both grouped dimensions are non-empty and the cleaner
run does not abort. -/
def witRaw : RawGame :=
  { rawBase with
    bgg_game_id := PyVal.pint 421
    year_published := some 2020
    categories := [LinkEntry.lval (PyVal.pstr "Strategy")]
    mechanics := [LinkEntry.ldict (some 2001) ("Dice Rolling")]
    extraction_date := some "2026-10-12T00:00:00" }

/-- Uuid stream for the C2 witness. -/
def uuidsW : Nat → String := fun n => "uuid-" ++ toString n

/-! ## Data-quality engine (`data_quality.py`)

Each declared rule category is evaluated from aggregate query results into a
dict with a `passed` flag that is the AND of its sub-checks; the handler ANDs
those flags, stores a result record keyed by a fresh check id, and on a
FAILED verdict calls `send_dq_alert`, which builds its message with
`', '.join(failed_checks)` over a list of dicts. -/

/-- One evaluated rule category, carrying the aggregate query results the
sub-checks are computed from: completeness (total row count, per-field null
counts, threshold), validity (per-field total and out-of-range counts),
consistency (per-rule total and violation counts), uniqueness (number of
duplicated key combinations), referential integrity (per-field orphan
counts). -/
inductive DqCheck where
  | completeness (total : Nat) (fieldNulls : List (String × Nat))
      (threshold : Rat)
  | validity (fields : List (String × Nat × Nat))
  | consistency (rules : List (String × Nat × Nat))
  | uniqueness (duplicateKeys : Nat)
  | refIntegrity (fields : List (String × Nat))
deriving DecidableEq

/-- `(total - nulls) / total if total > 0 else 0`. -/
def completenessFrac (total nulls : Nat) : Rat :=
  if 0 < total then ((total : Rat) - (nulls : Rat)) / (total : Rat) else 0

/-- The `passed` flags of a category's sub-checks, one per required field,
validated field, consistency rule, key set or foreign-key field. -/
def DqCheck.subFlags : DqCheck → List Bool
  | .completeness total fs th =>
      fs.map (fun f => decide (th ≤ completenessFrac total f.2))
  | .validity fs => fs.map (fun f => decide (f.2.2 = 0))
  | .consistency rs => rs.map (fun r => decide (r.2.2 = 0))
  | .uniqueness d => [decide (d = 0)]
  | .refIntegrity fs => fs.map (fun f => decide (f.2 = 0))

/-- A category's top-level `passed` flag: the AND of its sub-checks. -/
def DqCheck.passedB (c : DqCheck) : Bool := c.subFlags.all (fun b => b)

/-- `all(check.get('passed', False) for ...)` over every evaluated category. -/
def dqOverall (checks : List DqCheck) : Bool := checks.all DqCheck.passedB

/-- A Python object as it appears in the `failed_checks` list: the source
appends one dict per failed category. -/
inductive PyObj where
  | pstr (s : String)
  | pdict
deriving DecidableEq

/-- String test for `str.join` elements. -/
def PyObj.isStr : PyObj → Bool
  | .pstr _ => true
  | .pdict => false

/-- The string payload of a `PyObj` (meaningful only when it is a string). -/
def PyObj.strVal : PyObj → String
  | .pstr s => s
  | .pdict => ""

/-- Python `sep.join(items)`: raises `TypeError` unless every item is a
string. -/
def pyJoin (sep : String) (l : List PyObj) : Except String String :=
  if l.all PyObj.isStr then
    Except.ok (String.intercalate sep (l.map PyObj.strVal))
  else Except.error ("TypeError: sequence item: expected str instance")

/-- `send_dq_alert`: return silently without a topic; otherwise build the
message (joining the failed-check list) and publish once. -/
def sendDqAlert (topic : Option String) (failed : List PyObj) :
    Except String Nat :=
  match topic with
  | none => Except.ok 0
  | some _ => (pyJoin (", ") failed).map (fun _ => 1)

/-- Whether a category's stored result dict contains Python floats: a
completeness category stores the float `completeness` ratio and `threshold`
per required field, and a validity category stores the float `validity_rate`
per field; consistency, uniqueness and referential-integrity results hold
only ints, bools and strings. -/
def DqCheck.storedFloats : DqCheck → Bool
  | .completeness _ fs _ => !fs.isEmpty
  | .validity fs => !fs.isEmpty
  | .consistency _ => false
  | .uniqueness _ => false
  | .refIntegrity _ => false

/-- `store_dq_results`: `dq_table.put_item(Item=results)`.  boto3's DynamoDB
serializer raises `TypeError("Float types are not supported. Use Decimal
types instead.")` when the item contains Python floats, which `results` does
whenever a completeness or validity category was evaluated. -/
def storeDqResults (checks : List DqCheck) : Except String Unit :=
  if checks.any DqCheck.storedFloats then
    Except.error ("TypeError: Float types are not supported")
  else Except.ok ()

/-- Outcome of one data-quality invocation. -/
structure DqRunResult where
  overallStatus : String
  storedRecord : Bool
  alertsPublished : Nat
  raised : Bool
deriving DecidableEq

/-- The tail of the data-quality `lambda_handler`: compute the verdict, then
store the result record (keyed by the freshly generated check id) — an
exception there propagates with nothing stored and no alert attempted —
then on a FAILED verdict send the alert; an exception in `send_dq_alert`
propagates out of the handler after the record was stored. -/
def dqHandler (checks : List DqCheck) (topic : Option String) : DqRunResult :=
  let overall := dqOverall checks
  let status := if overall then "PASSED" else "FAILED"
  let failed : List PyObj :=
    checks.filterMap (fun c => if c.passedB then none else some PyObj.pdict)
  match storeDqResults checks with
  | Except.error _ => ⟨status, false, 0, true⟩
  | Except.ok _ =>
      if overall then ⟨status, true, 0, false⟩
      else
        match sendDqAlert topic failed with
        | Except.ok n => ⟨status, true, n, false⟩
        | Except.error _ => ⟨status, true, 0, true⟩

/-- Concrete failing run for C9: the `br_game_category` referential-integrity
check finds 3 orphan `game_id` rows (a float-free result, so the store
succeeds and the alert path is reached). -/
def dqChecksW : List DqCheck := [DqCheck.refIntegrity [("game_id", 3)]]

/-- Concrete dim_game-style run for C9: completeness and uniqueness checks
that all pass — but whose result dict carries floats. -/
def dqChecksDimGame : List DqCheck :=
  [DqCheck.completeness 100 [("game_id", 0), ("name", 2)] (95 / 100),
   DqCheck.uniqueness 0]

/-- Concrete float-free passing run for C9. -/
def dqChecksOk : List DqCheck := [DqCheck.uniqueness 0]

lemma surrogateKey_of_falsy (a b : PyVal) (h1 : a.truthy = false)
    (h2 : b.truthy = false) : surrogateKey (pyOr a b) = "bggg_0" := by
  simp only [surrogateKey, pyOr, h1, h2, PyVal.render, if_false, Bool.false_eq_true]
  decide

/-- C5 counterexample: a raw `min_players` of `-1` reaches the cleaned record
unchanged, so the cleaned record violates `min_players ≥ 1`. -/
theorem negativePlayersCex :
    (cleanRecord ("2026-01-01T00:00:00") rawNegPlayers).min_players
        = some (-1) ∧
    ¬ (1 : Int) ≤ -1 := by
  exact ⟨by decide, by decide⟩

/-- C5 (amended): the cleaner's zero-normalization maps a raw player count of
`0` (and an absent one, whose `NA` condition pandas `where` fills with
`False`) to `1`, and every cleaned record whose raw player counts are
nonnegative satisfies `min_players ≥ 1` and `max_players ≥ 1`; negative raw
values are the only ones passed through below `1`. -/
theorem zeroNormalization (now : String) (g : RawGame) :
    (g.min_players = some 0 → (cleanRecord now g).min_players = some 1) ∧
    (g.max_players = some 0 → (cleanRecord now g).max_players = some 1) ∧
    (g.min_players = none → (cleanRecord now g).min_players = some 1) ∧
    (g.max_players = none → (cleanRecord now g).max_players = some 1) ∧
    (∀ n : Int, g.min_players = some n → 0 ≤ n →
      ∃ m : Int, (cleanRecord now g).min_players = some m ∧ 1 ≤ m) ∧
    (∀ n : Int, g.max_players = some n → 0 ≤ n →
      ∃ m : Int, (cleanRecord now g).max_players = some m ∧ 1 ≤ m) := by
  refine ⟨fun h => ?_, fun h => ?_, fun h => ?_, fun h => ?_,
    fun n h h0 => ?_, fun n h h0 => ?_⟩
  · simp [cleanRecord, normPlayers, h]
  · simp [cleanRecord, normPlayers, h]
  · simp [cleanRecord, normPlayers, h]
  · simp [cleanRecord, normPlayers, h]
  · rcases eq_or_ne n 0 with rfl | hn
    · exact ⟨1, by simp [cleanRecord, normPlayers, h], le_refl 1⟩
    · exact ⟨n, by simp [cleanRecord, normPlayers, h, hn], by omega⟩
  · rcases eq_or_ne n 0 with rfl | hn
    · exact ⟨1, by simp [cleanRecord, normPlayers, h], le_refl 1⟩
    · exact ⟨n, by simp [cleanRecord, normPlayers, h, hn], by omega⟩

/-- C5 witness: on a concrete record with raw `min_players = 0` and
`max_players = 5`, the cleaned record has `min_players = 1` and a
`max_players` that is at least `1`. -/
theorem zeroNormalizationWitness :
    (cleanRecord ("2026-01-01T00:00:00") rawZeroPlayers).min_players
        = some 1 ∧
    ∃ m : Int,
      (cleanRecord ("2026-01-01T00:00:00") rawZeroPlayers).max_players
          = some m ∧ 1 ≤ m := by
  have h := zeroNormalization ("2026-01-01T00:00:00") rawZeroPlayers
  exact ⟨h.1 rfl, h.2.2.2.2.2 5 rfl (by decide)⟩

/-- C6 counterexample: cleaning a record that carries no `extraction_date`
at two different times yields different cleaned records (the default is
`datetime.utcnow().isoformat()`), so two-run equality fails as stated. -/
theorem missingExtractionDateCex :
    (cleanRecord ("2026-01-01T00:00:00") rawNoDate).extraction_date
        = "2026-01-01T00:00:00" ∧
    (cleanRecord ("2026-01-02T00:00:00") rawNoDate).extraction_date
        = "2026-01-02T00:00:00" ∧
    cleanRecord ("2026-01-01T00:00:00") rawNoDate
        ≠ cleanRecord ("2026-01-02T00:00:00") rawNoDate := by
  refine ⟨rfl, rfl, fun h => ?_⟩
  exact absurd (congrArg CleanedGame.extraction_date h) (by decide)

/-- C6 (amended): the surrogate key is a pure function of the selected source
id and never depends on the run time; re-cleaning any record (or batch) whose
records carry an `extraction_date` at two different times yields bit-for-bit
identical cleaned output. -/
theorem cleaningDeterminism (t1 t2 : String) (g : RawGame)
    (gs : List RawGame) :
    ((cleanRecord t1 g).game_id = (cleanRecord t2 g).game_id) ∧
    (∀ g2 : RawGame, sourceIdOf g2 = sourceIdOf g →
      (cleanRecord t1 g2).game_id = (cleanRecord t2 g).game_id) ∧
    (g.extraction_date ≠ none → cleanRecord t1 g = cleanRecord t2 g) ∧
    ((∀ g2 ∈ gs, g2.extraction_date ≠ none) →
      cleanBatch t1 gs = cleanBatch t2 gs) := by
  refine ⟨rfl, fun g2 hsrc => ?_, fun hd => ?_, fun hall => ?_⟩
  · simp only [cleanRecord]
    rw [hsrc]
  · rcases hx : g.extraction_date with _ | d
    · exact absurd hx hd
    · simp [cleanRecord, hx]
  · induction gs with
    | nil => rfl
    | cons a as ih =>
        have ha : a.extraction_date ≠ none := hall a (by simp)
        rcases hx : a.extraction_date with _ | d
        · exact absurd hx ha
        · have hhead : cleanRecord t1 a = cleanRecord t2 a := by
            simp [cleanRecord, hx]
          have htail : cleanBatch t1 as = cleanBatch t2 as :=
            ih fun g2 hg2 => hall g2 (by simp [hg2])
          simp only [cleanBatch, List.map_cons]
          exact congrArg₂ List.cons hhead htail

/-- C6 witness: a concrete record with an `extraction_date` cleans to the
same bit-for-bit output at two different run times, and a record sharing its
source id gets the same surrogate key. -/
theorem cleaningDeterminismWitness :
    cleanRecord ("2026-01-01T00:00:00") rawZeroPlayers
        = cleanRecord ("2026-01-02T00:00:00") rawZeroPlayers ∨
    cleanRecord ("2026-01-01T00:00:00")
        { rawZeroPlayers with extraction_date := some "2025-12-31T00:00:00" }
      = cleanRecord ("2026-01-02T00:00:00")
        { rawZeroPlayers with extraction_date := some "2025-12-31T00:00:00" } := by
  have h := cleaningDeterminism ("2026-01-01T00:00:00") ("2026-01-02T00:00:00")
    { rawZeroPlayers with extraction_date := some "2025-12-31T00:00:00" } []
  exact Or.inr (h.2.2.1 (by decide))

/-- C10: a raw record with neither a truthy `bgg_game_id` nor a truthy
`game_id` is kept by the cleaner (the batch length is preserved) and receives
the fixed surrogate key `bggg_0`; any two such records collide on that key. -/
theorem fallbackSurrogateKey (now : String) (gs : List RawGame) (g : RawGame)
    (h1 : g.bgg_game_id.truthy = false) (h2 : g.game_id.truthy = false) :
    (cleanRecord now g).game_id = "bggg_0" ∧
    (cleanBatch now gs).length = gs.length ∧
    (∀ g2 : RawGame, g2.bgg_game_id.truthy = false →
      g2.game_id.truthy = false →
      (cleanRecord now g2).game_id = (cleanRecord now g).game_id) := by
  have hg : (cleanRecord now g).game_id = "bggg_0" :=
    surrogateKey_of_falsy g.bgg_game_id g.game_id h1 h2
  refine ⟨hg, ?_, fun g2 k1 k2 => ?_⟩
  · simp [cleanBatch]
  · rw [hg]
    exact surrogateKey_of_falsy g2.bgg_game_id g2.game_id k1 k2

/-- C10 witness: two concrete id-less records (ids `None`/`0` and `0`/empty
string) are both kept and both map to the surrogate key `bggg_0`. -/
theorem fallbackSurrogateKeyWitness :
    PyVal.truthy rawNoId.bgg_game_id = false ∧
    (cleanRecord ("2026-01-01T00:00:00") rawNoId).game_id = "bggg_0" ∧
    (cleanBatch ("2026-01-01T00:00:00") [rawNoId, rawNoId2]).length = 2 ∧
    (cleanRecord ("2026-01-01T00:00:00") rawNoId2).game_id
        = (cleanRecord ("2026-01-01T00:00:00") rawNoId).game_id := by
  have h := fallbackSurrogateKey ("2026-01-01T00:00:00") [rawNoId, rawNoId2]
    rawNoId (by decide) (by decide)
  exact ⟨by decide, h.1, h.2.1, h.2.2 rawNoId2 (by decide) (by decide)⟩

lemma getLastScannedId_scanStep (st : CrawlState) (s : Int) (bs : Nat)
    (responses : Nat → Option (List String)) :
    getLastScannedId (discoveryScanStep st s bs responses).2
      = getLastScannedId st + s := by
  simp [discoveryScanStep, scanIdRange, setLastScannedId, getLastScannedId,
    pyIntOfStr_pyStrOfInt]

/-- C3: after a range-scan step over `[watermark, watermark + size)` the
stored watermark equals the window's upper bound, for every possible set of
sub-batch responses (including all-error and zero-valid-id windows), and for
a nonnegative window size the watermark never decreases, run after run. -/
theorem watermarkAdvancesUnconditionally (st : CrawlState)
    (scanRangeSize : Int) (batchSize : Nat)
    (responses : Nat → Option (List String))
    (runs : Nat → Nat → Option (List String)) :
    (getLastScannedId
        (discoveryScanStep st scanRangeSize batchSize responses).2
      = getLastScannedId st + scanRangeSize) ∧
    (0 ≤ scanRangeSize →
      getLastScannedId st ≤ getLastScannedId
        (discoveryScanStep st scanRangeSize batchSize responses).2) ∧
    (0 ≤ scanRangeSize → ∀ n : Nat,
      getLastScannedId (discoveryIter st scanRangeSize batchSize runs n)
        ≤ getLastScannedId
            (discoveryIter st scanRangeSize batchSize runs (n + 1))) := by
  refine ⟨getLastScannedId_scanStep st scanRangeSize batchSize responses,
    fun h0 => ?_, fun h0 n => ?_⟩
  · rw [getLastScannedId_scanStep]
    omega
  · show _ ≤ getLastScannedId
      (discoveryScanStep (discoveryIter st scanRangeSize batchSize runs n)
        scanRangeSize batchSize (runs n)).2
    rw [getLastScannedId_scanStep]
    omega

/-- C3 witness: starting from an empty state store (watermark defaults to 1)
with window size 500, a run in which every sub-batch request fails still
advances the stored watermark to 501. -/
theorem watermarkAdvancesWitness :
    getLastScannedId
        (discoveryScanStep ⟨none⟩ 500 20 (fun _ => none)).2 = 501 ∧
    getLastScannedId (⟨none⟩ : CrawlState)
      ≤ getLastScannedId
          (discoveryScanStep ⟨none⟩ 500 20 (fun _ => none)).2 := by
  have h := watermarkAdvancesUnconditionally ⟨none⟩ 500 20 (fun _ => none)
    (fun _ _ => none)
  refine ⟨?_, h.2.1 (by decide)⟩
  rw [h.1]
  decide

lemma refreshQuery_length_le (table : List StateItem) (cutoffIso : String)
    (limit : Nat) :
    (getGamesNeedingRefresh table cutoffIso limit).length ≤ limit := by
  unfold getGamesNeedingRefresh
  refine le_trans (List.dedup_sublist _).length_le ?_
  refine le_trans (List.length_filterMap_le _ _) ?_
  apply List.length_take_le

/-- C4: for all configuration values, the discovery batch is the union of the
refresh set with a capped non-refresh pool drawn from
`(trending ∪ range_scan) − recent − stale`; the refresh portion never exceeds
`refresh_limit`, the non-refresh portion never exceeds `new_ids_limit`, and
when no truncation is needed the batch is exactly
`(trending ∪ range_scan − recent − stale) ∪ stale`. -/
theorem discoveryBatchCombination (hotAll : List String) (hotLimit : Nat)
    (scanIds : List String) (table : List StateItem) (cutoffIso : String)
    (refreshLimit newIdsLimit : Nat) :
    ((getGamesNeedingRefresh table cutoffIso refreshLimit).length
        ≤ refreshLimit) ∧
    (((discoveryBatch hotAll hotLimit scanIds table cutoffIso refreshLimit
          newIdsLimit).filter
        (fun x =>
          decide (x ∉ getGamesNeedingRefresh table cutoffIso refreshLimit))).length
        ≤ newIdsLimit) ∧
    (∀ x ∈ getGamesNeedingRefresh table cutoffIso refreshLimit,
      x ∈ discoveryBatch hotAll hotLimit scanIds table cutoffIso refreshLimit
            newIdsLimit) ∧
    (∀ x ∈ discoveryBatch hotAll hotLimit scanIds table cutoffIso refreshLimit
          newIdsLimit,
      x ∈ getGamesNeedingRefresh table cutoffIso refreshLimit ∨
        ((x ∈ hotAll.take hotLimit ∨ x ∈ scanIds) ∧
          x ∉ getRecentlyProcessedGames table cutoffIso ∧
          x ∉ getGamesNeedingRefresh table cutoffIso refreshLimit)) ∧
    ((nonRefreshPool hotAll hotLimit scanIds
          (getRecentlyProcessedGames table cutoffIso)
          (getGamesNeedingRefresh table cutoffIso refreshLimit)).length
        ≤ newIdsLimit →
      ∀ x,
        x ∈ discoveryBatch hotAll hotLimit scanIds table cutoffIso
              refreshLimit newIdsLimit ↔
          (((x ∈ hotAll.take hotLimit ∨ x ∈ scanIds) ∧
            x ∉ getRecentlyProcessedGames table cutoffIso ∧
            x ∉ getGamesNeedingRefresh table cutoffIso refreshLimit) ∨
            x ∈ getGamesNeedingRefresh table cutoffIso refreshLimit)) := by
  set recent := getRecentlyProcessedGames table cutoffIso with hrec
  set stale := getGamesNeedingRefresh table cutoffIso refreshLimit with hst
  set pool := nonRefreshPool hotAll hotLimit scanIds recent stale with hpool
  set capped := if newIdsLimit < pool.length then pool.take newIdsLimit
    else pool with hcapped
  have hbatch : discoveryBatch hotAll hotLimit scanIds table cutoffIso
      refreshLimit newIdsLimit = (capped ++ stale).dedup := rfl
  have hcaplen : capped.length ≤ newIdsLimit ∨ capped = pool := by
    rw [hcapped]
    split
    · exact Or.inl (List.length_take_le _ _)
    · exact Or.inr rfl
  have hcaplen2 : capped.length ≤ newIdsLimit := by
    rw [hcapped]
    split
    · apply List.length_take_le
    · omega
  have hcapsub : ∀ x ∈ capped, x ∈ pool := by
    intro x hx
    rw [hcapped] at hx
    rcases hcaplen with _ | heq
    · by_cases hc : newIdsLimit < pool.length
      · rw [if_pos hc] at hx
        exact List.mem_of_mem_take hx
      · rwa [if_neg hc] at hx
    · by_cases hc : newIdsLimit < pool.length
      · rw [if_pos hc] at hx
        exact List.mem_of_mem_take hx
      · rwa [if_neg hc] at hx
  have hpoolmem : ∀ x, x ∈ pool ↔
      ((x ∈ hotAll.take hotLimit ∨ x ∈ scanIds) ∧ x ∉ recent ∧ x ∉ stale) := by
    intro x
    simp only [hpool, nonRefreshPool, List.mem_filter, List.mem_dedup,
      List.mem_append, decide_eq_true_eq]
    tauto
  refine ⟨refreshQuery_length_le table cutoffIso refreshLimit, ?_, ?_, ?_, ?_⟩
  · have hsub : List.Sublist ((capped ++ stale).dedup.filter
        (fun x => decide (x ∉ stale)))
        ((capped ++ stale).filter (fun x => decide (x ∉ stale))) :=
      (List.dedup_sublist _).filter _
    rw [hbatch]
    rw [List.filter_append] at hsub
    have hstale0 : stale.filter (fun x => decide (x ∉ stale)) = [] := by
      rw [List.filter_eq_nil_iff]
      intro a ha
      simp [ha]
    rw [hstale0, List.append_nil] at hsub
    calc ((capped ++ stale).dedup.filter
          (fun x => decide (x ∉ stale))).length
        ≤ (capped.filter (fun x => decide (x ∉ stale))).length :=
          hsub.length_le
      _ ≤ capped.length := List.length_filter_le _ _
      _ ≤ newIdsLimit := hcaplen2
  · intro x hx
    rw [hbatch, List.mem_dedup, List.mem_append]
    exact Or.inr hx
  · intro x hx
    rw [hbatch, List.mem_dedup, List.mem_append] at hx
    rcases hx with hx | hx
    · exact Or.inr ((hpoolmem x).mp (hcapsub x hx))
    · exact Or.inl hx
  · intro hlen x
    have hcap : capped = pool := by
      rw [hcapped, if_neg (by omega)]
    rw [hbatch, hcap, List.mem_dedup, List.mem_append, hpoolmem x]

/-- C4 witness: on a concrete state table and strategy outputs, the refresh
portion and the capped non-refresh portion respect their limits, the stale id
rides along in the batch, and with no truncation the batch agrees with the
set formula at a sample id. -/
theorem discoveryBatchCombinationWitness :
    (getGamesNeedingRefresh dqT4 ("2026-01-01T00:00:00") 100).length ≤ 100 ∧
    "20" ∈ discoveryBatch ["10", "11"] 5 ["12"] dqT4 ("2026-01-01T00:00:00")
        100 1000 ∧
    ("11" ∈ discoveryBatch ["10", "11"] 5 ["12"] dqT4 ("2026-01-01T00:00:00")
        100 1000 ↔
      ((("11" ∈ (["10", "11"] : List String).take 5 ∨
          "11" ∈ (["12"] : List String)) ∧
        "11" ∉ getRecentlyProcessedGames dqT4 ("2026-01-01T00:00:00") ∧
        "11" ∉ getGamesNeedingRefresh dqT4 ("2026-01-01T00:00:00") 100) ∨
        "11" ∈ getGamesNeedingRefresh dqT4 ("2026-01-01T00:00:00") 100)) := by
  have h := discoveryBatchCombination ["10", "11"] 5 ["12"] dqT4
    ("2026-01-01T00:00:00") 100 1000
  exact ⟨h.1, h.2.2.1 "20" (by decide), h.2.2.2.2 (by decide) "11"⟩

lemma fetchGo_spec (outcomes : Nat → FetchOutcome) :
    ∀ r a : Nat,
      (fetchGo outcomes a r).attempts ≤ r ∧
      (1 ≤ r → 1 ≤ (fetchGo outcomes a r).attempts) ∧
      (∀ k : Nat, k + 1 < (fetchGo outcomes a r).attempts →
        outcomes (a + k) = FetchOutcome.netErr) ∧
      ((fetchGo outcomes a r).waits =
        (List.range ((fetchGo outcomes a r).attempts - 1)).map
          (fun k => 2 ^ (a + k))) ∧
      (∀ k : Nat, k < (fetchGo outcomes a r).attempts →
        (outcomes (a + k)).noRetry = true →
        (fetchGo outcomes a r).attempts = k + 1 ∧
        (fetchGo outcomes a r).result = none) ∧
      (∀ k : Nat, k + 1 < r →
        (∀ j : Nat, j ≤ k → outcomes (a + j) = FetchOutcome.netErr) →
        k + 1 < (fetchGo outcomes a r).attempts) := by
  intro r
  induction r with
  | zero =>
      intro a
      refine ⟨le_refl 0, by omega, ?_, rfl, ?_, ?_⟩
      · intro k hk
        simp [fetchGo] at hk
      · intro k hk
        simp [fetchGo] at hk
      · intro k hk
        omega
  | succ r ih =>
      intro a
      cases hc : outcomes a with
      | ok p =>
          have hrun : fetchGo outcomes a (r + 1) = ⟨some p, 1, []⟩ := by
            simp [fetchGo, hc]
          rw [hrun]
          dsimp only
          refine ⟨by omega, fun _ => le_refl 1, ?_, rfl, ?_, ?_⟩
          · intro k hk
            omega
          · intro k hk hnr
            have hk0 : k = 0 := by omega
            subst hk0
            rw [Nat.add_zero, hc] at hnr
            simp [FetchOutcome.noRetry] at hnr
          · intro k hk hstreak
            have h0 := hstreak 0 (Nat.zero_le k)
            rw [Nat.add_zero, hc] at h0
            cases h0
      | parsedNone =>
          have hrun : fetchGo outcomes a (r + 1) = ⟨none, 1, []⟩ := by
            simp [fetchGo, hc]
          rw [hrun]
          dsimp only
          refine ⟨by omega, fun _ => le_refl 1, ?_, rfl, ?_, ?_⟩
          · intro k hk
            omega
          · intro k hk hnr
            have hk0 : k = 0 := by omega
            subst hk0
            exact ⟨rfl, rfl⟩
          · intro k hk hstreak
            have h0 := hstreak 0 (Nat.zero_le k)
            rw [Nat.add_zero, hc] at h0
            cases h0
      | httpErr =>
          have hrun : fetchGo outcomes a (r + 1) = ⟨none, 1, []⟩ := by
            simp [fetchGo, hc]
          rw [hrun]
          dsimp only
          refine ⟨by omega, fun _ => le_refl 1, ?_, rfl, ?_, ?_⟩
          · intro k hk
            omega
          · intro k hk hnr
            have hk0 : k = 0 := by omega
            subst hk0
            exact ⟨rfl, rfl⟩
          · intro k hk hstreak
            have h0 := hstreak 0 (Nat.zero_le k)
            rw [Nat.add_zero, hc] at h0
            cases h0
      | otherErr =>
          have hrun : fetchGo outcomes a (r + 1) = ⟨none, 1, []⟩ := by
            simp [fetchGo, hc]
          rw [hrun]
          dsimp only
          refine ⟨by omega, fun _ => le_refl 1, ?_, rfl, ?_, ?_⟩
          · intro k hk
            omega
          · intro k hk hnr
            have hk0 : k = 0 := by omega
            subst hk0
            exact ⟨rfl, rfl⟩
          · intro k hk hstreak
            have h0 := hstreak 0 (Nat.zero_le k)
            rw [Nat.add_zero, hc] at h0
            cases h0
      | netErr =>
          by_cases hr : r = 0
          · subst hr
            have hrun : fetchGo outcomes a 1 = ⟨none, 1, []⟩ := by
              simp [fetchGo, hc]
            rw [hrun]
            dsimp only
            refine ⟨le_refl 1, fun _ => le_refl 1, ?_, rfl, ?_, ?_⟩
            · intro k hk
              omega
            · intro k hk hnr
              have hk0 : k = 0 := by omega
              subst hk0
              rw [Nat.add_zero, hc] at hnr
              simp [FetchOutcome.noRetry] at hnr
            · intro k hk
              omega
          · have hr1 : 1 ≤ r := by omega
            obtain ⟨ih1, ih1b, ih2, ih3, ih4, ih5⟩ := ih (a + 1)
            have hrun : fetchGo outcomes a (r + 1) =
                ⟨(fetchGo outcomes (a + 1) r).result,
                  (fetchGo outcomes (a + 1) r).attempts + 1,
                  2 ^ a :: (fetchGo outcomes (a + 1) r).waits⟩ := by
              simp [fetchGo, hc, hr]
            rw [hrun]
            dsimp only
            have hpos := ih1b hr1
            refine ⟨by omega, fun _ => by omega, ?_, ?_, ?_, ?_⟩
            · intro k hk
              cases k with
              | zero => simpa using hc
              | succ k2 =>
                  have hk2 : k2 + 1 < (fetchGo outcomes (a + 1) r).attempts := by
                    simp at hk
                    omega
                  have := ih2 k2 hk2
                  rwa [show a + 1 + k2 = a + (k2 + 1) by omega] at this
            · show 2 ^ a :: (fetchGo outcomes (a + 1) r).waits =
                (List.range ((fetchGo outcomes (a + 1) r).attempts + 1 - 1)).map
                  (fun k => 2 ^ (a + k))
              rw [ih3, Nat.add_sub_cancel,
                show (fetchGo outcomes (a + 1) r).attempts =
                  ((fetchGo outcomes (a + 1) r).attempts - 1) + 1 by omega,
                List.range_succ_eq_map]
              simp only [List.map_cons, Nat.add_zero, List.map_map]
              refine congrArg (fun l => 2 ^ a :: l) ?_
              apply List.map_congr_left
              intro x _
              simp only [Function.comp]
              refine congrArg (fun t => 2 ^ t) ?_
              omega
            · intro k hk hnr
              cases k with
              | zero =>
                  rw [Nat.add_zero, hc] at hnr
                  simp [FetchOutcome.noRetry] at hnr
              | succ k2 =>
                  have hk2 : k2 < (fetchGo outcomes (a + 1) r).attempts := by
                    simp at hk
                    omega
                  have hnr2 : (outcomes (a + 1 + k2)).noRetry = true := by
                    rw [show a + 1 + k2 = a + (k2 + 1) by omega]
                    exact hnr
                  obtain ⟨he, hres⟩ := ih4 k2 hk2 hnr2
                  exact ⟨by simp [he], hres⟩
            · intro k hk hstreak
              show k + 1 < (fetchGo outcomes (a + 1) r).attempts + 1
              cases k with
              | zero => omega
              | succ k2 =>
                  have hk2r : k2 + 1 < r := by omega
                  have hs2 : ∀ j : Nat, j ≤ k2 →
                      outcomes (a + 1 + j) = FetchOutcome.netErr := by
                    intro j hj
                    have := hstreak (j + 1) (by omega)
                    rwa [show a + (j + 1) = a + 1 + j by omega] at this
                  have := ih5 k2 hk2r hs2
                  omega

/-- C7: `fetch_game_data` makes at most `max_retries` requests; every
non-final request failed with a transient network error and was followed by
an exponential-backoff sleep of `2 ** attempt` seconds; an HTTP-level error,
a parse failure or any other exception at some attempt ends the call
immediately at that attempt with result `None`; and as long as only network
errors occur, retries continue up to the bound. -/
theorem fetchRetryPolicy (outcomes : Nat → FetchOutcome) (maxRetries : Nat) :
    ((fetchGameData outcomes maxRetries).attempts ≤ maxRetries) ∧
    (∀ k : Nat, k + 1 < (fetchGameData outcomes maxRetries).attempts →
      outcomes k = FetchOutcome.netErr) ∧
    ((fetchGameData outcomes maxRetries).waits =
      (List.range ((fetchGameData outcomes maxRetries).attempts - 1)).map
        (fun k => 2 ^ k)) ∧
    (∀ k : Nat, k < (fetchGameData outcomes maxRetries).attempts →
      (outcomes k).noRetry = true →
      (fetchGameData outcomes maxRetries).attempts = k + 1 ∧
      (fetchGameData outcomes maxRetries).result = none) ∧
    (∀ k : Nat, k + 1 < maxRetries →
      (∀ j : Nat, j ≤ k → outcomes j = FetchOutcome.netErr) →
      k + 1 < (fetchGameData outcomes maxRetries).attempts) := by
  obtain ⟨h1, _, h2, h3, h4, h5⟩ := fetchGo_spec outcomes maxRetries 0
  simp only [fetchGameData]
  refine ⟨h1, ?_, ?_, ?_, ?_⟩
  · intro k hk
    simpa using h2 k hk
  · rw [h3]
    apply List.map_congr_left
    intro x _
    simp
  · intro k hk hnr
    exact h4 k hk (by simpa using hnr)
  · intro k hk hs
    exact h5 k hk (fun j hj => by simpa using hs j hj)

/-- C7 witness: with a network error on attempt 0 and an HTTP error on
attempt 1 under `max_retries = 3`, the call makes exactly two requests,
sleeps 1 second between them, and ends immediately at the HTTP error with
result `None`. -/
theorem fetchRetryPolicyWitness :
    (fetchGameData fetchOutcomesW 3).attempts = 2 ∧
    fetchOutcomesW 0 = FetchOutcome.netErr ∧
    (fetchGameData fetchOutcomesW 3).attempts ≤ 3 ∧
    ((fetchGameData fetchOutcomesW 3).attempts = 1 + 1 ∧
      (fetchGameData fetchOutcomesW 3).result = none) ∧
    (fetchGameData fetchOutcomesW 3).waits = [1] := by
  have h := fetchRetryPolicy fetchOutcomesW 3
  exact ⟨by decide, by decide, h.1, h.2.2.2.1 1 (by decide) (by decide),
    by decide⟩

/-- C1: the extraction handler records per-item success or failure only in
its response body and raw-batch file; its effect trace contains no item-state
write at all (no IN_PROGRESS, COMPLETED or FAILED transition, no content
hash), as evaluated concretely on the batch `[421]`. -/
theorem extractWorkerWritesNoItemState (gameIds : List Int)
    (fetch : Int → Option String) (extractionDate batchName : String) :
    ((extractHandler gameIds fetch extractionDate batchName).trace.filter
        ExtractEffect.isStateWrite = []) ∧
    (extractHandler [421] extractFetchOk ("2026-10-12") ("batch_1")).gamesProcessed
        = 1 ∧
    (extractHandler [421] extractFetchOk ("2026-10-12") ("batch_1")).trace
      = [ExtractEffect.fetchCall 421,
         ExtractEffect.s3PutRaw (rawBatchKey ("2026-10-12") ("batch_1")) 1] := by
  refine ⟨?_, by decide, by decide⟩
  rw [List.filter_eq_nil_iff]
  intro e he
  unfold extractHandler at he
  by_cases hids : gameIds.isEmpty
  · rw [if_pos hids] at he
    simp at he
  · rw [if_neg hids] at he
    simp only [List.mem_append, List.mem_map] at he
    rcases he with ⟨i, _, rfl⟩ | he
    · simp [ExtractEffect.isStateWrite]
    · by_cases hg : (gameIds.filterMap fetch).isEmpty
      · simp [hg] at he
      · simp [hg] at he
        subst he
        simp [ExtractEffect.isStateWrite]

/-- C8: every bridge table produced by a transform run has no repeated
`(game surrogate key, dimension id)` pair, for every surrogate-key map, raw
batch and dimension selector. -/
theorem bridgePairsUnique (m : List (Int × String)) (games : List RawGame)
    (select : RawGame → List LinkEntry) :
    (bridgeTable m games select).Nodup := by
  unfold bridgeTable
  set rows := bridgeRows m games select with hrows
  refine List.Nodup.map_on ?_ (List.nodup_dedup _)
  intro t1 h1 t2 h2 heq
  have hmem1 := List.mem_dedup.mp h1
  have hmem2 := List.mem_dedup.mp h2
  obtain ⟨r1, hr1, rfl⟩ := List.mem_map.mp hmem1
  obtain ⟨r2, hr2, rfl⟩ := List.mem_map.mp hmem2
  simp only [Prod.mk.injEq] at heq
  obtain ⟨hfst, hid⟩ := heq
  have hn1 : r1.2 ∈ sortedDimValues rows := by
    have hm : r1.2 ∈ (rows.map Prod.snd).dedup :=
      List.mem_dedup.mpr (List.mem_map_of_mem Prod.snd hr1)
    exact ((List.perm_insertionSort _ _).mem_iff).mpr hm
  have hn2 : r2.2 ∈ sortedDimValues rows := by
    have hm : r2.2 ∈ (rows.map Prod.snd).dedup :=
      List.mem_dedup.mpr (List.mem_map_of_mem Prod.snd hr2)
    exact ((List.perm_insertionSort _ _).mem_iff).mpr hm
  have hidx : (sortedDimValues rows).indexOf r1.2
      = (sortedDimValues rows).indexOf r2.2 := by
    unfold dimIdMap at hid
    omega
  have hnm : r1.2 = r2.2 := (List.indexOf_inj hn1 hn2).mp hidx
  simp [hfst, hnm]

lemma atomicSeqAt_here (u : String) (k : BlobKey) (body : FilePayload)
    (rest : List S3Op) : atomicSeqAt (atomicWrite u k body ++ rest) k :=
  ⟨u, body, [], rest, by simp⟩

lemma atomicSeqAt_append_left (r tr : List S3Op) (k : BlobKey)
    (h : atomicSeqAt tr k) : atomicSeqAt (r ++ tr) k := by
  obtain ⟨u, body, s, t, heq⟩ := h
  exact ⟨u, body, r ++ s, t, by rw [← heq]; simp⟩

lemma atomicSeqAt_append_right (tr r : List S3Op) (k : BlobKey)
    (h : atomicSeqAt tr k) : atomicSeqAt (tr ++ r) k := by
  obtain ⟨u, body, s, t, heq⟩ := h
  exact ⟨u, body, s, t ++ r, by rw [← heq]; simp⟩

lemma yearOps_atomic (uuids : Nat → String) (df : List CleanedGame) :
    ∀ (ys : List Int) (i : Nat) (y : Int), y ∈ ys →
      atomicSeqAt (yearWriteOps uuids df i ys) (BlobKey.dimGameYear y) := by
  intro ys
  induction ys with
  | nil =>
      intro i y hy
      simp at hy
  | cons a as ih =>
      intro i y hy
      simp only [yearWriteOps]
      rcases List.mem_cons.mp hy with rfl | hy2
      · exact atomicSeqAt_here _ _ _ _
      · exact atomicSeqAt_append_left _ _ _ (ih (i + 1) y hy2)

lemma dimOps_atomic (uuids : Nat → String) (ts : String)
    (raws : List RawGame) :
    ∀ (specs : List DimSpec) (i : Nat),
      (∀ s ∈ specs, s.grouped = true →
        dedupByIdFirst (dimRowsOf raws s.select) ≠ []) →
      ∀ spec ∈ specs, dedupByIdFirst (dimRowsOf raws spec.select) ≠ [] →
      atomicSeqAt (dimWriteOps uuids ts raws i specs).1
        (BlobKey.dimTableKey spec.table ts) := by
  intro specs
  induction specs with
  | nil =>
      intro i _ spec hmem
      simp at hmem
  | cons s rest ih =>
      intro i hnoab spec hmem hne
      simp only [dimWriteOps]
      by_cases hemp : (dedupByIdFirst (dimRowsOf raws s.select)).isEmpty
      · by_cases hg : s.grouped = true
        · exact absurd (List.isEmpty_iff.mp hemp)
            (hnoab s (List.mem_cons_self s rest) hg)
        · rw [if_pos hemp, if_neg hg]
          rcases List.mem_cons.mp hmem with rfl | hmem2
          · exact absurd (List.isEmpty_iff.mp hemp) hne
          · exact ih i (fun x hx => hnoab x (List.mem_cons_of_mem s hx))
              spec hmem2 hne
      · rw [if_neg hemp]
        rcases List.mem_cons.mp hmem with rfl | hmem2
        · exact atomicSeqAt_here _ _ _ _
        · exact atomicSeqAt_append_left _ _ _
            (ih (i + 1) (fun x hx => hnoab x (List.mem_cons_of_mem s hx))
              spec hmem2 hne)

lemma dimOps_abort (uuids : Nat → String) (ts : String)
    (raws : List RawGame) :
    ∀ (specs : List DimSpec) (i : Nat),
      (dimWriteOps uuids ts raws i specs).2 =
        specs.any (fun s =>
          s.grouped && (dedupByIdFirst (dimRowsOf raws s.select)).isEmpty) := by
  intro specs
  induction specs with
  | nil =>
      intro i
      simp [dimWriteOps]
  | cons s rest ih =>
      intro i
      simp only [dimWriteOps, List.any_cons]
      by_cases hemp : (dedupByIdFirst (dimRowsOf raws s.select)).isEmpty
      · by_cases hg : s.grouped = true
        · simp [hemp, hg]
        · simp only [Bool.not_eq_true] at hg
          simp [hemp, hg, ih i]
      · rw [if_neg hemp]
        have hf : (dedupByIdFirst (dimRowsOf raws s.select)).isEmpty = false := by
          simpa using hemp
        simp [hf, ih (i + 1)]

lemma yearOps_puts_tmp (uuids : Nat → String) (df : List CleanedGame) :
    ∀ (ys : List Int) (i : Nat), ∀ op ∈ yearWriteOps uuids df i ys,
      ∀ k b, op = S3Op.putOb k b → ∃ u, k = BlobKey.tmpKey u := by
  intro ys
  induction ys with
  | nil =>
      intro i op hop
      simp [yearWriteOps] at hop
  | cons a as ih =>
      intro i op hop
      simp only [yearWriteOps, atomicWrite, List.cons_append, List.nil_append,
        List.mem_cons] at hop
      rcases hop with rfl | rfl | rfl | hop
      · intro k b heq
        cases heq
        exact ⟨uuids i, rfl⟩
      · intro k b heq
        cases heq
      · intro k b heq
        cases heq
      · exact ih (i + 1) op hop

lemma dimOps_puts_tmp (uuids : Nat → String) (ts : String)
    (raws : List RawGame) :
    ∀ (specs : List DimSpec) (i : Nat),
      ∀ op ∈ (dimWriteOps uuids ts raws i specs).1,
      ∀ k b, op = S3Op.putOb k b → ∃ u, k = BlobKey.tmpKey u := by
  intro specs
  induction specs with
  | nil =>
      intro i op hop
      simp [dimWriteOps] at hop
  | cons s rest ih =>
      intro i op hop
      simp only [dimWriteOps] at hop
      by_cases hemp : (dedupByIdFirst (dimRowsOf raws s.select)).isEmpty
      · rw [if_pos hemp] at hop
        by_cases hg : s.grouped = true
        · rw [if_pos hg] at hop
          simp at hop
        · rw [if_neg hg] at hop
          exact ih i op hop
      · rw [if_neg hemp] at hop
        simp only [atomicWrite, List.cons_append, List.nil_append,
          List.mem_cons] at hop
        rcases hop with rfl | rfl | rfl | hop
        · intro k b heq
          cases heq
          exact ⟨uuids i, rfl⟩
        · intro k b heq
          cases heq
        · intro k b heq
          cases heq
        · exact ih (i + 1) op hop

lemma transformer_all_direct_puts (dfGame : List CleanedGame)
    (raws : List RawGame) (tNow : String) :
    ∀ op ∈ transformerTrace dfGame raws tNow,
      ∃ k b, op = S3Op.putOb k b ∧ ∀ u, k ≠ BlobKey.tmpKey u := by
  intro op hop
  simp only [transformerTrace, List.mem_append] at hop
  rcases hop with hop | hop
  · obtain ⟨spec, _, hopin⟩ := List.mem_flatMap.mp hop
    by_cases hemp : (bridgeTable (gameIdMap dfGame) raws spec.2).isEmpty
    · rw [if_pos hemp] at hopin
      simp at hopin
    · rw [if_neg hemp] at hopin
      obtain ⟨y, _, rfl⟩ := List.mem_map.mp hopin
      exact ⟨_, _, rfl, fun u h => by cases h⟩
  · by_cases hemp : (factRows raws (gameIdMap dfGame) tNow).isEmpty
    · rw [if_pos hemp] at hop
      simp at hop
    · rw [if_neg hemp] at hop
      obtain ⟨d, _, rfl⟩ := List.mem_map.mp hop
      exact ⟨_, _, rfl, fun u h => by cases h⟩

/-- C2 (amended): the Bronze-to-Silver cleaner writes each `dim_game` year
partition with the contiguous put-temp / copy-to-final / delete-temp
sequence; in a run that does not abort (its grouped dimensions — categories
and mechanics — each yield at least one row; an empty one makes
`extract_dimension_data` raise `KeyError` and the handler re-raise, after
which no later table is written), each non-empty dimension-lookup table is
also written with that sequence; the abort flag of the emitted trace agrees
with that condition; every put the cleaner issues targets the temp area, so
a reader polling a final cleaner key never observes a partially written file
even in an aborted run; the Silver-to-Gold transformer instead writes each
bridge and fact file with a single direct put to the final key. -/
theorem atomicWriteCleanerNotTransformer (uuids : Nat → String)
    (now ts tNow : String) (raws raws2 : List RawGame)
    (dfGame : List CleanedGame) :
    (∀ y ∈ yearKeys (cleanBatch now raws),
      atomicSeqAt (cleanerTrace uuids now ts raws) (BlobKey.dimGameYear y)) ∧
    (cleanerAborts raws = false →
      ∀ spec ∈ cleanerDimSpecs,
      dedupByIdFirst (dimRowsOf raws spec.select) ≠ [] →
      atomicSeqAt (cleanerTrace uuids now ts raws)
        (BlobKey.dimTableKey spec.table ts)) ∧
    ((dimWriteOps uuids ts raws (yearKeys (cleanBatch now raws)).length
        cleanerDimSpecs).2 = cleanerAborts raws) ∧
    (∀ op ∈ cleanerTrace uuids now ts raws, ∀ k b, op = S3Op.putOb k b →
      ∃ u, k = BlobKey.tmpKey u) ∧
    (∀ op ∈ transformerTrace dfGame raws2 tNow,
      ∃ k b, op = S3Op.putOb k b ∧ ∀ u, k ≠ BlobKey.tmpKey u) := by
  refine ⟨?_, ?_, dimOps_abort uuids ts raws cleanerDimSpecs _, ?_,
    transformer_all_direct_puts dfGame raws2 tNow⟩
  · intro y hy
    exact atomicSeqAt_append_right _ _ _
      (yearOps_atomic uuids (cleanBatch now raws) _ 0 y hy)
  · intro habort spec hspec hne
    have habort2 : cleanerDimSpecs.any (fun s =>
        s.grouped && (dedupByIdFirst (dimRowsOf raws s.select)).isEmpty)
        = false := habort
    have hnoab : ∀ s ∈ cleanerDimSpecs, s.grouped = true →
        dedupByIdFirst (dimRowsOf raws s.select) ≠ [] := by
      intro s hs hg hcontra
      have h1 := (List.any_eq_false.mp habort2) s hs
      rw [hg, hcontra] at h1
      simp at h1
    exact atomicSeqAt_append_left _ _ _
      (dimOps_atomic uuids ts raws cleanerDimSpecs _ hnoab spec hspec hne)
  · intro op hop
    rcases List.mem_append.mp hop with h | h
    · exact yearOps_puts_tmp uuids (cleanBatch now raws) _ 0 op h
    · exact dimOps_puts_tmp uuids ts raws cleanerDimSpecs _ op h

/-- C2 counterexample: on the spec's own end-to-end scenario input, the
transformer emits the `br_game_category` year-2020 file with a single direct
put to the final key, and its trace contains no put-temp / copy / delete
block for that key — the claimed write sequence does not happen there. -/
theorem transformerDirectPutCex :
    (S3Op.putOb (BlobKey.bridgeYear ("br_game_category") 2020)
        (FilePayload.bridgeRowsP [("bggg_421", 1)])
      ∈ transformerTrace cexDf [cexRaw] ("2026-10-12T00:00:00")) ∧
    ¬ atomicSeqAt (transformerTrace cexDf [cexRaw] ("2026-10-12T00:00:00"))
        (BlobKey.bridgeYear ("br_game_category") 2020) := by
  constructor
  · decide
  · rintro ⟨u, body, s, t, heq⟩
    have hmem : S3Op.copyOb (BlobKey.tmpKey u)
        (BlobKey.bridgeYear ("br_game_category") 2020)
        ∈ transformerTrace cexDf [cexRaw] ("2026-10-12T00:00:00") := by
      rw [← heq]
      simp [atomicWrite]
    have hall : (transformerTrace cexDf [cexRaw]
        ("2026-10-12T00:00:00")).all (fun op => !op.isCopy) = true := by
      decide
    have := List.all_eq_true.mp hall _ hmem
    simp [S3Op.isCopy] at this

/-- C2 witness: on a concrete batch whose grouped dimensions are non-empty,
the cleaner writes the year-2020 `dim_game` partition and the `dim_category`
table through the atomic sequence and does not abort; the scenario batch with
no mechanics does abort; and the transformer's `br_game_category` write is a
direct put to a non-temp key. -/
theorem atomicWriteCleanerWitness :
    atomicSeqAt
      (cleanerTrace uuidsW ("2026-10-12T00:00:00") ("20261012_000000")
        [witRaw]) (BlobKey.dimGameYear 2020) ∧
    atomicSeqAt
      (cleanerTrace uuidsW ("2026-10-12T00:00:00") ("20261012_000000")
        [witRaw]) (BlobKey.dimTableKey ("dim_category") ("20261012_000000")) ∧
    cleanerAborts [witRaw] = false ∧
    cleanerAborts [cexRaw] = true ∧
    (∃ k b, S3Op.putOb (BlobKey.bridgeYear ("br_game_category") 2020)
        (FilePayload.bridgeRowsP [("bggg_421", 1)]) = S3Op.putOb k b ∧
        ∀ u, k ≠ BlobKey.tmpKey u) := by
  have h := atomicWriteCleanerNotTransformer uuidsW ("2026-10-12T00:00:00")
    ("20261012_000000") ("2026-10-12T00:00:00") [witRaw] [cexRaw] cexDf
  refine ⟨h.1 2020 (by decide), ?_, by decide, by decide, ?_⟩
  · refine h.2.1 (by decide) ⟨"dim_category", RawGame.categories, true⟩ ?_
      (by decide)
    unfold cleanerDimSpecs
    exact List.mem_cons_self _ _
  · exact h.2.2.2.2 _ (by decide)

/-- C9: evaluated on a concrete failing run whose results carry no floats (a
referential-integrity check with 3 orphan rows and a configured SNS topic),
the verdict is FAILED and the result record is stored under the fresh check
id, but `send_dq_alert` raises a `TypeError` while joining the list of
failed-check dicts, so no alert is published and the handler propagates the
exception instead of returning normally.  On a dim_game-style run whose
completeness results carry floats, `store_dq_results` itself raises boto3's
float `TypeError`, so nothing is stored and the alert logic is never
reached, even though every check passed.  Only a float-free passing run
stores its record and returns normally; and `', '.join` over a non-empty
dict list errors while over strings it succeeds. -/
theorem dqAlertTypeError :
    dqOverall dqChecksW = false ∧
    (dqHandler dqChecksW (some ("arn:aws:sns:dq-alerts"))).overallStatus
        = "FAILED" ∧
    (dqHandler dqChecksW (some ("arn:aws:sns:dq-alerts"))).storedRecord
        = true ∧
    (dqHandler dqChecksW (some ("arn:aws:sns:dq-alerts"))).alertsPublished
        = 0 ∧
    (dqHandler dqChecksW (some ("arn:aws:sns:dq-alerts"))).raised = true ∧
    dqOverall dqChecksDimGame = true ∧
    storeDqResults dqChecksDimGame =
      Except.error ("TypeError: Float types are not supported") ∧
    (dqHandler dqChecksDimGame (some ("arn:aws:sns:dq-alerts"))) =
      ⟨"PASSED", false, 0, true⟩ ∧
    (dqHandler dqChecksOk (some ("arn:aws:sns:dq-alerts"))) =
      ⟨"PASSED", true, 0, false⟩ ∧
    pyJoin (", ") [PyObj.pdict] =
      Except.error ("TypeError: sequence item: expected str instance") ∧
    pyJoin (", ") [PyObj.pstr ("completeness"), PyObj.pstr ("validity")] =
      Except.ok ("completeness, validity") := by
  have hfrac1 : ((95 : Rat) / 100) ≤ completenessFrac 100 0 := by
    unfold completenessFrac
    norm_num
  have hfrac2 : ((95 : Rat) / 100) ≤ completenessFrac 100 2 := by
    unfold completenessFrac
    norm_num
  have hpass : dqOverall dqChecksDimGame = true := by
    simp [dqOverall, dqChecksDimGame, DqCheck.passedB, DqCheck.subFlags,
      hfrac1, hfrac2]
  have hstore : storeDqResults dqChecksDimGame =
      Except.error ("TypeError: Float types are not supported") := rfl
  refine ⟨by decide, by decide, by decide, by decide, by decide, hpass,
    hstore, ?_, by decide, by rfl, by rfl⟩
  simp [dqHandler, hstore, hpass]

end BGGSpec
